import Mathlib

/-! Kernellab: shared counters, reset, aggregate attribute and pid lookup.

A shallow embedding of `src/kernellab/kernellab.c`.

* The three file-scope `static int` counters are the fields of `Counters`.
  A C `int` is 32 bits wide; the kernel is built with `-fno-strict-overflow`,
  so `+=` on an `int` wraps in two's complement.  `wrapInt` is that reduction.
* Every entry point is a function from its arguments, the inputs the
  environment supplies (a pending signal, a faulting user copy, the value an
  unset local happens to hold, the process list) and the counters before the
  call, to the counters after the call and what the caller observes.
* `pidinfo.h` is not part of the sources: `RESET` is a parameter, and the two
  structs it declares carry the fields the C file uses.
* The semaphore operations and the loads and stores of the counters of each
  entry point are listed, in program order, by the `_events` definitions.
-/

namespace Kernellab

/-! ## Machine integers and kernel constants -/

/-- Reduction of a mathematical integer to the value a 32-bit `int` holds. -/
def wrapInt (x : Int) : Int := (x + 2 ^ 31) % 2 ^ 32 - 2 ^ 31

/-- Largest value of a C `int`. -/
def INT_MAX : Int := 2 ^ 31 - 1

/-- Kernel constant from `linux/errno.h`. -/
def ERESTARTSYS : Int := 512

/-- Kernel constant from `linux/errno.h`. -/
def ENOIOCTLCMD : Int := 515

/-- Kernel constant from `asm-generic/errno-base.h`. -/
def EFAULT : Int := 14

/-- What `sprintf(buf, "%d\n", x)` stores in `buf`. -/
def sprintf_d (x : Int) : String := toString x ++ "\n"

/-! ## Data model -/

/-- The globals `current_count`, `pid_count`, `all_count` (lines 37-39). -/
structure Counters where
  current_count : Int
  pid_count : Int
  all_count : Int
  deriving DecidableEq, Repr

/-- State after module load: statics are zero-initialised. -/
def Counters.zero : Counters := ⟨0, 0, 0⟩

/-- What a sysfs show callback hands back: the text put in `buf` and the
returned length. -/
structure ShowResult where
  buf : String
  ret : Int
  deriving DecidableEq, Repr

/-- The fields of `struct task_struct` that the module reads. -/
structure task_struct where
  pid : Int
  comm : String
  state : Int
  deriving DecidableEq, Repr

/-- The struct `pid_info` of `pidinfo.h`, with the fields `kernellab_write`
assigns. -/
structure pid_info where
  pid : Int
  comm : String
  state : Int
  deriving DecidableEq, Repr

/-- The struct `kernellab_message` of `pidinfo.h`: the pid asked for and the
user-space address of the caller's `pid_info` buffer. -/
structure kernellab_message where
  pid : Int
  address : Nat
  deriving DecidableEq, Repr

/-- What the environment decides during one `kernellab_write`:
whether each of the three user copies faults, what `message` holds after the
first `copy_from_user` (the caller's envelope when it did not fault) and what
`p_info` holds after the second one (the content of the caller's output buffer
when it did not fault). -/
structure UserXfer where
  msg_fault : Bool
  message : kernellab_message
  info_fault : Bool
  p_info : pid_info
  out_fault : Bool
  deriving DecidableEq, Repr

/-- What the caller of `kernellab_write` observes: the return value and the
`pid_info` stored in its output buffer by `copy_to_user`, if one was stored. -/
structure WriteResult where
  ret : Int
  delivered : Option pid_info
  deriving DecidableEq, Repr

/-! ## Sysfs show callbacks (lines 44-79) -/

/-- Lines 44-48: format `current_count`. -/
def kernellab_current_count (s : Counters) : Counters × ShowResult :=
  (s, ⟨sprintf_d s.current_count, (sprintf_d s.current_count).length⟩)

/-- Lines 53-57: format `pid_count`. -/
def kernellab_pid_count (s : Counters) : Counters × ShowResult :=
  (s, ⟨sprintf_d s.pid_count, (sprintf_d s.pid_count).length⟩)

/-- Lines 63-79: accumulate into `all_count`, then format it.  `attrName` is
`attr->attr.name`. -/
def kernellab_all_count (attrName : String) (s : Counters) : Counters × ShowResult :=
  let s1 : Counters :=
    if attrName = "current_count" then
      { s with all_count := wrapInt (s.all_count + s.current_count) }
    else
      let t : Counters := { s with all_count := wrapInt (s.all_count + s.pid_count) }
      { t with all_count := wrapInt (t.all_count + t.current_count) }
  (s1, ⟨sprintf_d s1.all_count, (sprintf_d s1.all_count).length⟩)

/-- Lines 81-82: the callback is registered once, by `__ATTR(all_count, ...)`,
which names the attribute `all_count`. -/
def all_count_attr_name : String := "all_count"

/-! ## Device file operations (lines 104-240) -/

/-- Lines 104-134.  `interrupted` says whether `down_interruptible` (line 127)
returns non-zero. -/
def kernellab_open (minor : Int) (interrupted : Bool) (s : Counters) : Counters × Int :=
  let s1 : Counters :=
    if minor = 1 then { s with current_count := wrapInt (s.current_count + 1) }
    else { s with pid_count := wrapInt (s.pid_count + 1) }
  if interrupted then (s1, -ERESTARTSYS) else (s1, 0)

/-- Lines 136-143. -/
def kernellab_release (_minor : Int) (s : Counters) : Counters × Int := (s, 0)

/-- Lines 145-167.  `RESET` is the command code of `pidinfo.h`. -/
def kernellab_ioctl (RESET : Nat) (minor : Int) (cmd : Nat) (s : Counters) : Counters × Int :=
  let s1 : Counters :=
    if minor = 1 ∧ cmd = RESET then { s with current_count := 0 }
    else { s with pid_count := 0 }
  ({ s1 with all_count := 0 }, -ENOIOCTLCMD)

/-- Lines 169-189.  `errno0` is the value the local `errno`, declared without
an initialiser, holds on entry; `fault` says whether `copy_to_user` fails. -/
def kernellab_read (_minor : Int) (errno0 : Int) (fault : Bool) (s : Counters) : Counters × Int :=
  (s, if fault then -EFAULT else errno0)

/-- Lines 224-230: `for_each_process` visits every task in list order, and each
task whose pid equals the request overwrites `p_info`; the loop has no
`break`. -/
def scan_tasks (tasks : List task_struct) (pid : Int) (p : pid_info) : pid_info :=
  tasks.foldl (fun acc task => if task.pid = pid then ⟨task.pid, task.comm, task.state⟩ else acc) p

/-- Lines 191-240.  `errno0` is the value the local `errno`, declared without
an initialiser, holds on entry. -/
def kernellab_write (minor : Int) (errno0 : Int) (x : UserXfer) (tasks : List task_struct)
    (s : Counters) : Counters × WriteResult :=
  if minor = 2 then
    let e1 : Int := if x.msg_fault then -EFAULT else errno0
    let e2 : Int := if x.info_fault then -EFAULT else e1
    let p : pid_info := scan_tasks tasks x.message.pid x.p_info
    let e3 : Int := if x.out_fault then -EFAULT else e2
    (s, ⟨e3, if x.out_fault then none else some p⟩)
  else
    (s, ⟨errno0, none⟩)

/-! ## Runs of operations -/

/-- A sequence of `open` calls that all succeed (no signal arrives), one per
listed minor, applied in order. -/
def open_all (minors : List Int) (s : Counters) : Counters :=
  minors.foldl (fun st m => (kernellab_open m false st).1) s

/-- One call into the module, with the inputs the environment chooses. -/
inductive Op where
  | dev_open (minor : Int) (interrupted : Bool)
  | dev_release (minor : Int)
  | dev_read (minor : Int) (errno0 : Int) (fault : Bool)
  | dev_write (minor : Int) (errno0 : Int) (x : UserXfer) (tasks : List task_struct)
  | dev_ioctl (minor : Int) (cmd : Nat)
  | attr_current_count
  | attr_pid_count
  | attr_all_count
  deriving DecidableEq, Repr

/-- Effect of one call on the counters. -/
def step (RESET : Nat) (op : Op) (s : Counters) : Counters :=
  match op with
  | .dev_open minor interrupted => (kernellab_open minor interrupted s).1
  | .dev_release minor => (kernellab_release minor s).1
  | .dev_read minor errno0 fault => (kernellab_read minor errno0 fault s).1
  | .dev_write minor errno0 x tasks => (kernellab_write minor errno0 x tasks s).1
  | .dev_ioctl minor cmd => (kernellab_ioctl RESET minor cmd s).1
  | .attr_current_count => (kernellab_current_count s).1
  | .attr_pid_count => (kernellab_pid_count s).1
  | .attr_all_count => (kernellab_all_count all_count_attr_name s).1

/-- Effect of a sequence of calls, applied in order. -/
def run (RESET : Nat) (ops : List Op) (s : Counters) : Counters :=
  ops.foldl (fun st op => step RESET op st) s

/-- Whether the call is an `ioctl`. -/
def Op.isIoctl : Op → Bool
  | .dev_ioctl _ _ => true
  | _ => false

/-- Whether the `int` additions `op` performs from `s` stay at or below
`INT_MAX`, so that no wrap-around happens in this call. -/
def noOverflow (op : Op) (s : Counters) : Bool :=
  match op with
  | .dev_open minor _ =>
      if minor = 1 then decide (s.current_count + 1 ≤ INT_MAX)
      else decide (s.pid_count + 1 ≤ INT_MAX)
  | .attr_all_count =>
      decide (s.all_count + s.pid_count ≤ INT_MAX) &&
        decide (s.all_count + s.pid_count + s.current_count ≤ INT_MAX)
  | _ => true

/-- Whether no call of the sequence wraps a counter when run from `s`. -/
def noOverflowRun (RESET : Nat) : List Op → Counters → Bool
  | [], _ => true
  | op :: ops, s => noOverflow op s && noOverflowRun RESET ops (step RESET op s)

/-- All three counters are at least zero. -/
def NonNeg (s : Counters) : Prop :=
  0 ≤ s.current_count ∧ 0 ≤ s.pid_count ∧ 0 ≤ s.all_count

/-- All three counters hold values of a 32-bit `int`. -/
def InRange (s : Counters) : Prop :=
  (-2 ^ 31 ≤ s.current_count ∧ s.current_count < 2 ^ 31) ∧
  (-2 ^ 31 ≤ s.pid_count ∧ s.pid_count < 2 ^ 31) ∧
  (-2 ^ 31 ≤ s.all_count ∧ s.all_count < 2 ^ 31)

/-! ## Semaphore operations and counter accesses, in program order -/

/-- The three shared variables. -/
inductive Counter where
  | current_count
  | pid_count
  | all_count
  deriving DecidableEq, Repr

/-- A semaphore operation or an access to a counter.  A semaphore is named by
the minor of the `kernellab_dev` it is a field of (`kernellab_device[i].minor`
is `i + 1`, line 274). -/
inductive Event where
  | down (sem : Int)
  | up (sem : Int)
  | load (c : Counter)
  | store (c : Counter)
  deriving DecidableEq, Repr

/-- Line 47. -/
def kernellab_current_count_events : List Event := [.load .current_count]

/-- Line 56. -/
def kernellab_pid_count_events : List Event := [.load .pid_count]

/-- Lines 69-78: `kernellab_device->sem` is the semaphore of element 0 of the
array, the device with minor 1; the `sprintf` follows the `up`. -/
def kernellab_all_count_events (attrName : String) : List Event :=
  [.down 1] ++
  (if attrName = "current_count" then
    [.load .all_count, .load .current_count, .store .all_count]
  else
    [.load .all_count, .load .pid_count, .store .all_count,
     .load .all_count, .load .current_count, .store .all_count]) ++
  [.up 1, .load .all_count]

/-- Lines 116-130: `dev->sem` is the semaphore of the opened device. -/
def kernellab_open_events (minor : Int) (interrupted : Bool) : List Event :=
  [.down minor] ++
  (if minor = 1 then [.load .current_count, .store .current_count]
   else [.load .pid_count, .store .pid_count]) ++
  [.up minor] ++
  (if interrupted then [] else [.down minor, .up minor])

/-- Lines 155-165. -/
def kernellab_ioctl_events (RESET : Nat) (minor : Int) (cmd : Nat) : List Event :=
  [.down minor] ++
  (if minor = 1 ∧ cmd = RESET then [.store .current_count] else [.store .pid_count]) ++
  [.store .all_count, .up minor]

/-- Every counter access of an event sequence, paired with the semaphores
held when it is made; `held` lists the semaphores held before the first
event. -/
def accesses : List Event → List Int → List (Event × List Int)
  | [], _ => []
  | .down l :: es, held => accesses es (l :: held)
  | .up l :: es, held => accesses es (held.erase l)
  | .load c :: es, held => (.load c, held) :: accesses es held
  | .store c :: es, held => (.store c, held) :: accesses es held

/-- The discipline "semaphore `L` is held at every load and store of a
counter made by open, ioctl and the three attribute reads, on either
instance". -/
def LockHeldThroughout (RESET : Nat) (L : Int) : Prop :=
  (∀ minor : Int, minor = 1 ∨ minor = 2 → ∀ interrupted : Bool,
      ∀ a ∈ accesses (kernellab_open_events minor interrupted) [], L ∈ a.2) ∧
  (∀ minor : Int, minor = 1 ∨ minor = 2 → ∀ cmd : Nat,
      ∀ a ∈ accesses (kernellab_ioctl_events RESET minor cmd) [], L ∈ a.2) ∧
  (∀ a ∈ accesses kernellab_current_count_events [], L ∈ a.2) ∧
  (∀ a ∈ accesses kernellab_pid_count_events [], L ∈ a.2) ∧
  (∀ a ∈ accesses (kernellab_all_count_events all_count_attr_name) [], L ∈ a.2)

/-! ## Lookup: what the scan is compared with, and sample inputs -/

/-- The triple `kernellab_write` copies out of a task (lines 226-228). -/
def task_info (t : task_struct) : pid_info := ⟨t.pid, t.comm, t.state⟩

/-- First entry of the table, in scan order, whose pid is `pid`. -/
def first_match (tasks : List task_struct) (pid : Int) : Option task_struct :=
  (tasks.filter (fun t => decide (t.pid = pid))).head?

/-- Last entry of the table, in scan order, whose pid is `pid`. -/
def last_match (tasks : List task_struct) (pid : Int) : Option task_struct :=
  (tasks.filter (fun t => decide (t.pid = pid))).getLast?

/-- All three user copies of a write succeed. -/
def UserXfer.noFault (x : UserXfer) : Prop :=
  x.msg_fault = false ∧ x.info_fault = false ∧ x.out_fault = false

/-- A request for pid 42 whose three user copies succeed; `prior` is what the
caller's output buffer holds before the call. -/
def request42 (prior : pid_info) : UserXfer :=
  ⟨false, ⟨42, 4096⟩, false, prior, false⟩

/-- The process of the scenario in the specification. -/
def worker : task_struct := ⟨42, "worker", 0⟩

/-- A second table entry carrying pid 42. -/
def other42 : task_struct := ⟨42, "other", 1⟩

/-- Buffer content a caller may have left in place before the call. -/
def stale : pid_info := ⟨7, "stale", 5⟩

/-! ## Sanity checks of the embedding on the scenario of the specification -/

example : (kernellab_open 1 false Counters.zero).1 = ⟨1, 0, 0⟩ := by decide
example : (kernellab_all_count all_count_attr_name ⟨3, 1, 0⟩).1 = ⟨3, 1, 4⟩ := by decide
example : (kernellab_all_count all_count_attr_name ⟨3, 1, 0⟩).2.buf = "4\n" := by decide
example : (kernellab_ioctl 7 1 7 ⟨3, 1, 8⟩) = (⟨0, 1, 0⟩, -515) := by decide
example : run 7 [.dev_open 1 false, .dev_open 1 false, .dev_open 1 false, .dev_open 2 false,
    .attr_all_count, .attr_all_count] Counters.zero = ⟨3, 1, 8⟩ := by decide
example : accesses (kernellab_open_events 2 false) [] =
    [(.load .pid_count, [2]), (.store .pid_count, [2])] := by decide
example : accesses (kernellab_all_count_events all_count_attr_name) [] =
    [(.load .all_count, [1]), (.load .pid_count, [1]), (.store .all_count, [1]),
     (.load .all_count, [1]), (.load .current_count, [1]), (.store .all_count, [1]),
     (.load .all_count, [])] := by decide

/-! ## Arithmetic of `wrapInt` -/

theorem wrapInt_of_inRange (x : Int) (h1 : -2 ^ 31 ≤ x) (h2 : x < 2 ^ 31) : wrapInt x = x := by
  unfold wrapInt
  omega

theorem wrapInt_add_left (a b : Int) : wrapInt (wrapInt a + b) = wrapInt (a + b) := by
  unfold wrapInt
  omega

theorem wrapInt_lower (x : Int) : -2 ^ 31 ≤ wrapInt x := by
  unfold wrapInt
  omega

theorem wrapInt_upper (x : Int) : wrapInt x < 2 ^ 31 := by
  unfold wrapInt
  omega

/-! ## Successful opens count per instance (C1) -/

theorem open_all_cons (m : Int) (ms : List Int) (s : Counters) :
    open_all (m :: ms) s = open_all ms (kernellab_open m false s).1 := rfl

theorem open_all_current (ms : List Int) (s : Counters) :
    wrapInt (open_all ms s).current_count = wrapInt (s.current_count + ms.count 1) := by
  induction ms generalizing s with
  | nil => simp [open_all]
  | cons m ms ih =>
    rw [open_all_cons, ih]
    by_cases h : m = 1
    · subst h
      simp only [kernellab_open, if_true, Bool.false_eq_true, if_false, List.count_cons_self]
      rw [wrapInt_add_left]
      congr 1
      push_cast
      ring
    · have h1 : ¬ (1 : Int) = m := fun e => h e.symm
      simp [kernellab_open, h, List.count_cons, h1]

theorem open_all_pid (ms : List Int) (s : Counters) :
    wrapInt (open_all ms s).pid_count =
      wrapInt (s.pid_count + ms.countP (fun m => decide (m ≠ 1))) := by
  induction ms generalizing s with
  | nil => simp [open_all]
  | cons m ms ih =>
    rw [open_all_cons, ih]
    by_cases h : m = 1
    · subst h
      simp [kernellab_open]
    · simp only [kernellab_open, h, if_false, Bool.false_eq_true]
      rw [wrapInt_add_left, List.countP_cons_of_pos]
      · congr 1
        push_cast
        ring
      · simpa using h

theorem open_all_all_count (ms : List Int) (s : Counters) :
    (open_all ms s).all_count = s.all_count := by
  induction ms generalizing s with
  | nil => rfl
  | cons m ms ih =>
    rw [open_all_cons, ih]
    by_cases h : m = 1 <;> simp [kernellab_open, h]

theorem open_all_inRange (ms : List Int) (s : Counters) (hs : InRange s) :
    InRange (open_all ms s) := by
  induction ms generalizing s with
  | nil => exact hs
  | cons m ms ih =>
    rw [open_all_cons]
    apply ih
    obtain ⟨hc, hp, ha⟩ := hs
    by_cases h : m = 1
    · simp only [kernellab_open, h, if_true, Bool.false_eq_true, if_false]
      exact ⟨⟨wrapInt_lower _, wrapInt_upper _⟩, hp, ha⟩
    · simp only [kernellab_open, h, if_false, Bool.false_eq_true]
      exact ⟨hc, ⟨wrapInt_lower _, wrapInt_upper _⟩, ha⟩

theorem zero_inRange : InRange Counters.zero := by
  simp [InRange, Counters.zero]

theorem countP_ne_one_eq_count_two (ms : List Int) (hm : ∀ m ∈ ms, m = 1 ∨ m = 2) :
    ms.countP (fun m => decide (m ≠ 1)) = ms.count 2 := by
  induction ms with
  | nil => rfl
  | cons m ms ih =>
    have ih0 := ih (fun x hx => hm x (List.mem_cons_of_mem _ hx))
    have ih1 : List.countP (fun m => !decide (m = 1)) ms = List.count 2 ms := by
      simpa using ih0
    rcases hm m (List.mem_cons_self _ _) with h | h
    · subst h
      simp [List.count_cons, ih1]
    · subst h
      simp [List.count_cons, ih1]

theorem open_all_zero_counts (ms : List Int) (hm : ∀ m ∈ ms, m = 1 ∨ m = 2) :
    (open_all ms Counters.zero).current_count = wrapInt (ms.count 1) ∧
    (open_all ms Counters.zero).pid_count = wrapInt (ms.count 2) := by
  obtain ⟨⟨c1, c2⟩, ⟨p1, p2⟩, _⟩ := open_all_inRange ms Counters.zero zero_inRange
  have hc := open_all_current ms Counters.zero
  have hp := open_all_pid ms Counters.zero
  rw [wrapInt_of_inRange _ c1 c2] at hc
  rw [wrapInt_of_inRange _ p1 p2, countP_ne_one_eq_count_two ms hm] at hp
  constructor
  · rw [hc]; simp [Counters.zero]
  · rw [hp]; simp [Counters.zero]

/-- C1 (as amended): starting from the zero-initialised counters, after any
finite sequence of successful opens of instance 1 and instance 2, in any order,
`current_count` is the number of opens of instance 1 and `pid_count` the number
of opens of instance 2, each reduced to a 32-bit `int`; they are exactly those
numbers whenever the numbers do not exceed `INT_MAX`.  `all_count` stays 0 and
every such open returns 0. -/
theorem open_all_counts_opens (minors : List Int) (hm : ∀ m ∈ minors, m = 1 ∨ m = 2) :
    (open_all minors Counters.zero).current_count = wrapInt (minors.count 1) ∧
    (open_all minors Counters.zero).pid_count = wrapInt (minors.count 2) ∧
    (open_all minors Counters.zero).all_count = 0 ∧
    ((minors.count 1 : Int) ≤ INT_MAX →
      (open_all minors Counters.zero).current_count = minors.count 1) ∧
    ((minors.count 2 : Int) ≤ INT_MAX →
      (open_all minors Counters.zero).pid_count = minors.count 2) ∧
    (∀ (m : Int) (s : Counters), (kernellab_open m false s).2 = 0) := by
  obtain ⟨hc, hp⟩ := open_all_zero_counts minors hm
  refine ⟨hc, hp, ?_, ?_, ?_, ?_⟩
  · rw [open_all_all_count]; rfl
  · intro h
    rw [hc]
    apply wrapInt_of_inRange
    · have : (0 : Int) ≤ (minors.count 1 : Int) := Int.natCast_nonneg _
      omega
    · unfold INT_MAX at h
      omega
  · intro h
    rw [hp]
    apply wrapInt_of_inRange
    · have : (0 : Int) ≤ (minors.count 2 : Int) := Int.natCast_nonneg _
      omega
    · unfold INT_MAX at h
      omega
  · intro m s
    simp [kernellab_open]

/-- Witness for C1: three opens of instance 1 and one of instance 2, interleaved,
give `current_count = 3` and `pid_count = 1`. -/
theorem open_all_counts_opens_witness :
    (open_all [1, 2, 1, 1] Counters.zero).current_count = 3 ∧
    (open_all [1, 2, 1, 1] Counters.zero).pid_count = 1 := by
  have h := open_all_counts_opens [1, 2, 1, 1] (by decide)
  exact ⟨h.2.2.2.1 (by decide), h.2.2.2.2.1 (by decide)⟩

/-- C1 fails as stated: after `2 ^ 31` successful opens of instance 1 the
32-bit `current_count` does not hold the number of opens. -/
theorem open_all_count_wraps :
    (∀ m ∈ List.replicate (2 ^ 31) (1 : Int), m = 1 ∨ m = 2) ∧
    (open_all (List.replicate (2 ^ 31) 1) Counters.zero).current_count = -2 ^ 31 ∧
    (open_all (List.replicate (2 ^ 31) 1) Counters.zero).current_count ≠
      ((List.replicate (2 ^ 31) (1 : Int)).count 1 : Int) := by
  have hm : ∀ m ∈ List.replicate (2 ^ 31) (1 : Int), m = 1 ∨ m = 2 := by
    intro m h
    exact Or.inl (List.eq_of_mem_replicate h)
  have hc := (open_all_zero_counts _ hm).1
  rw [List.count_replicate_self] at hc
  have hw : wrapInt ((2 ^ 31 : Nat) : Int) = -2 ^ 31 := by
    unfold wrapInt
    norm_num
  refine ⟨hm, ?_, ?_⟩
  · rw [hc, hw]
  · rw [hc, hw, List.count_replicate_self]
    norm_num

/-! ## Reset through ioctl (C2, C3) -/

/-- C2: for every counter state, `kernellab_ioctl` called with the `RESET`
command on instance 1 leaves `current_count = 0` and `all_count = 0`, on
instance 2 leaves `pid_count = 0` and `all_count = 0`, and in both cases
returns `-ENOIOCTLCMD` although the state changed; the counter of the other
instance keeps its value. -/
theorem kernellab_ioctl_reset (RESET : Nat) (s : Counters) :
    ((kernellab_ioctl RESET 1 RESET s).1.current_count = 0 ∧
      (kernellab_ioctl RESET 1 RESET s).1.all_count = 0 ∧
      (kernellab_ioctl RESET 1 RESET s).1.pid_count = s.pid_count ∧
      (kernellab_ioctl RESET 1 RESET s).2 = -ENOIOCTLCMD) ∧
    ((kernellab_ioctl RESET 2 RESET s).1.pid_count = 0 ∧
      (kernellab_ioctl RESET 2 RESET s).1.all_count = 0 ∧
      (kernellab_ioctl RESET 2 RESET s).1.current_count = s.current_count ∧
      (kernellab_ioctl RESET 2 RESET s).2 = -ENOIOCTLCMD) := by
  simp [kernellab_ioctl]

/-- C3 (code evaluated at the failing input): with counters 3, 1, 4 an ioctl
whose command is not `RESET` clears `pid_count` and `all_count`, on instance 1
as well as on instance 2; only `current_count` keeps its value. -/
theorem kernellab_ioctl_other_cmd_clears (RESET : Nat) :
    kernellab_ioctl RESET 1 (RESET + 1) ⟨3, 1, 4⟩ = (⟨3, 0, 0⟩, -ENOIOCTLCMD) ∧
    kernellab_ioctl RESET 2 (RESET + 1) ⟨3, 1, 4⟩ = (⟨3, 0, 0⟩, -ENOIOCTLCMD) := by
  simp [kernellab_ioctl]

/-! ## The aggregate attribute (C4) -/

theorem kernellab_all_count_state (s : Counters) :
    (kernellab_all_count all_count_attr_name s).1 =
      ⟨s.current_count, s.pid_count, wrapInt (s.all_count + s.pid_count + s.current_count)⟩ := by
  have hn : ¬ all_count_attr_name = "current_count" := by decide
  simp only [kernellab_all_count, hn, if_false]
  rw [wrapInt_add_left]

/-- C4 (as amended): for every counter state, one read of the `all_count`
attribute sets `all_count` to its previous value plus `pid_count` plus
`current_count`, reduced to a 32-bit `int` (so exactly that sum whenever the
sum is an `int` value), leaves `current_count` and `pid_count` unchanged, and
puts the new `all_count` in the buffer as decimal text followed by a newline,
returning the length of the text.  A second read adds the same delta again:
from 3, 1, 0 the first read gives `4` and the second `8`. -/
theorem kernellab_all_count_read (s : Counters) :
    (kernellab_all_count all_count_attr_name s).1.all_count =
      wrapInt (s.all_count + s.pid_count + s.current_count) ∧
    (-2 ^ 31 ≤ s.all_count + s.pid_count + s.current_count ∧
        s.all_count + s.pid_count + s.current_count ≤ INT_MAX →
      (kernellab_all_count all_count_attr_name s).1.all_count =
        s.all_count + s.pid_count + s.current_count) ∧
    (kernellab_all_count all_count_attr_name s).1.current_count = s.current_count ∧
    (kernellab_all_count all_count_attr_name s).1.pid_count = s.pid_count ∧
    (kernellab_all_count all_count_attr_name s).2.buf =
      toString (kernellab_all_count all_count_attr_name s).1.all_count ++ "\n" ∧
    (kernellab_all_count all_count_attr_name s).2.ret =
      (kernellab_all_count all_count_attr_name s).2.buf.length ∧
    (kernellab_all_count all_count_attr_name
        (kernellab_all_count all_count_attr_name s).1).1.all_count =
      wrapInt (s.all_count + 2 * (s.pid_count + s.current_count)) ∧
    (kernellab_all_count all_count_attr_name ⟨3, 1, 0⟩).2.buf = "4\n" ∧
    (kernellab_all_count all_count_attr_name
      (kernellab_all_count all_count_attr_name ⟨3, 1, 0⟩).1).2.buf = "8\n" := by
  refine ⟨?_, ?_, ?_, ?_, ?_, ?_, ?_, ?_, ?_⟩
  · rw [kernellab_all_count_state]
  · intro h
    rw [kernellab_all_count_state]
    apply wrapInt_of_inRange
    · exact h.1
    · have := h.2
      unfold INT_MAX at this
      omega
  · rw [kernellab_all_count_state]
  · rw [kernellab_all_count_state]
  · rfl
  · rfl
  · rw [kernellab_all_count_state, kernellab_all_count_state]
    simp only
    rw [add_assoc (wrapInt _), wrapInt_add_left]
    congr 1
    ring
  · decide
  · decide

/-- Witness for C4: from 3, 1, 0 the sum 4 is an `int` value, and one read
leaves `all_count = 4`. -/
theorem kernellab_all_count_read_witness :
    (kernellab_all_count all_count_attr_name ⟨3, 1, 0⟩).1.all_count = 0 + 1 + 3 :=
  (kernellab_all_count_read ⟨3, 1, 0⟩).2.1 (by decide)

/-- C4 fails as stated: with `all_count = INT_MAX`, `pid_count = 0` and
`current_count = 1`, one read leaves `all_count = -2147483648`, which is not
the previous value plus `pid_count` plus `current_count`. -/
theorem kernellab_all_count_wraps :
    (kernellab_all_count all_count_attr_name ⟨1, 0, 2147483647⟩).1.all_count = -2147483648 ∧
    (kernellab_all_count all_count_attr_name ⟨1, 0, 2147483647⟩).1.all_count ≠
      2147483647 + 0 + 1 ∧
    (kernellab_all_count all_count_attr_name ⟨1, 0, 2147483647⟩).2.buf = "-2147483648\n" := by
  decide

/-! ## Open interrupted while waiting for the semaphore (C5) -/

/-- C5 (code evaluated at the failing input): when `down_interruptible` is
interrupted, `kernellab_open` returns `-ERESTARTSYS`, yet the counter of the
opened instance has already been incremented. -/
theorem kernellab_open_interrupted_counts :
    kernellab_open 1 true ⟨0, 0, 0⟩ = (⟨1, 0, 0⟩, -ERESTARTSYS) ∧
    kernellab_open 2 true ⟨0, 0, 0⟩ = (⟨0, 1, 0⟩, -ERESTARTSYS) := by
  decide

/-! ## Lookup by pid on instance 2 (C6, C7) and write on instance 1 (C8) -/

theorem scan_tasks_concat (ts : List task_struct) (t : task_struct) (pid : Int) (p : pid_info) :
    scan_tasks (ts ++ [t]) pid p = if t.pid = pid then task_info t else scan_tasks ts pid p := by
  simp [scan_tasks, List.foldl_append, task_info]

theorem last_match_concat (ts : List task_struct) (t : task_struct) (pid : Int) :
    last_match (ts ++ [t]) pid = if t.pid = pid then some t else last_match ts pid := by
  unfold last_match
  by_cases h : t.pid = pid
  · simp [List.filter_append, h, List.filter_cons]
  · simp [List.filter_append, h, List.filter_cons]

theorem scan_tasks_eq_last_match (tasks : List task_struct) (pid : Int) (p : pid_info) :
    scan_tasks tasks pid p = ((last_match tasks pid).map task_info).getD p := by
  induction tasks using List.reverseRecOn with
  | nil => rfl
  | append_singleton ts t ih =>
    rw [scan_tasks_concat, last_match_concat]
    by_cases h : t.pid = pid
    · simp [h]
    · simp [h, ih]

theorem last_match_isSome (tasks : List task_struct) (pid : Int)
    (h : ∃ t ∈ tasks, t.pid = pid) :
    ∃ t, last_match tasks pid = some t ∧ t ∈ tasks ∧ t.pid = pid := by
  obtain ⟨t0, ht0, hp0⟩ := h
  have hne : tasks.filter (fun t => decide (t.pid = pid)) ≠ [] := by
    intro he
    have : t0 ∈ tasks.filter (fun t => decide (t.pid = pid)) := by
      simp [List.mem_filter, ht0, hp0]
    rw [he] at this
    exact List.not_mem_nil _ this
  refine ⟨(tasks.filter (fun t => decide (t.pid = pid))).getLast hne, ?_, ?_, ?_⟩
  · unfold last_match
    exact List.getLast?_eq_getLast _ hne
  · exact (List.mem_filter.mp (List.getLast_mem hne)).1
  · have := (List.mem_filter.mp (List.getLast_mem hne)).2
    simpa using this

theorem kernellab_write_delivered (errno0 : Int) (x : UserXfer) (tasks : List task_struct)
    (s : Counters) (hx : x.noFault) :
    (kernellab_write 2 errno0 x tasks s).2.delivered =
      some (((last_match tasks x.message.pid).map task_info).getD x.p_info) := by
  obtain ⟨_, _, h3⟩ := hx
  simp [kernellab_write, h3, scan_tasks_eq_last_match]

/-- C6 (as amended): for every process table and every requested pid that
occurs in it, when all user-space transfers succeed a write on instance 2
delivers to the caller's output buffer exactly the (pid, name, state) of the
LAST table entry in scan order whose pid equals the request; its pid is the
requested one, and it is also the first such entry whenever only one entry
carries that pid. -/
theorem kernellab_write_delivers_last_match (errno0 : Int) (x : UserXfer)
    (tasks : List task_struct) (s : Counters) (hx : x.noFault)
    (hp : ∃ t ∈ tasks, t.pid = x.message.pid) :
    ∃ t, last_match tasks x.message.pid = some t ∧ t ∈ tasks ∧ t.pid = x.message.pid ∧
      (kernellab_write 2 errno0 x tasks s).2.delivered = some ⟨t.pid, t.comm, t.state⟩ ∧
      ((tasks.filter (fun u => decide (u.pid = x.message.pid))).length = 1 →
        first_match tasks x.message.pid = some t) := by
  obtain ⟨t, hl, hm, hpid⟩ := last_match_isSome tasks x.message.pid hp
  refine ⟨t, hl, hm, hpid, ?_, ?_⟩
  · rw [kernellab_write_delivered errno0 x tasks s hx, hl]
    rfl
  · intro h1
    obtain ⟨a, ha⟩ := List.length_eq_one.mp h1
    unfold last_match at hl
    unfold first_match
    rw [ha] at hl ⊢
    simpa using hl

/-- Witness for C6: for the table holding `worker` (pid 42, name "worker",
state 0) a request for pid 42 delivers exactly that triple. -/
theorem kernellab_write_delivers_last_match_witness :
    ∃ t, last_match [worker] 42 = some t ∧ t ∈ [worker] ∧ t.pid = 42 ∧
      (kernellab_write 2 0 (request42 stale) [worker] Counters.zero).2.delivered =
        some ⟨t.pid, t.comm, t.state⟩ ∧
      (([worker].filter (fun u => decide (u.pid = 42))).length = 1 →
        first_match [worker] 42 = some t) :=
  kernellab_write_delivers_last_match 0 (request42 stale) [worker] Counters.zero
    ⟨rfl, rfl, rfl⟩ ⟨worker, by decide, by decide⟩

/-- C6 fails as stated: when two entries carry pid 42, the buffer receives the
triple of the second one, not of the first one in scan order. -/
theorem kernellab_write_not_first_match :
    first_match [worker, other42] 42 = some worker ∧
    (kernellab_write 2 0 (request42 stale) [worker, other42] Counters.zero).2.delivered =
      some ⟨42, "other", 1⟩ ∧
    (kernellab_write 2 0 (request42 stale) [worker, other42] Counters.zero).2.delivered ≠
      (first_match [worker, other42] 42).map task_info := by
  decide

/-- C8 (code evaluated at the failing input): a write on instance 1 leaves the
counters unchanged, stores nothing in the caller's buffer and does not depend
on the request or on the process table, but its return value is whatever the
local `errno`, never assigned on this path, holds: with `errno` holding
`-EFAULT` the call returns `-EFAULT`, not 0. -/
theorem kernellab_write_instance1_returns_unset_errno :
    (∀ (errno0 : Int) (x : UserXfer) (tasks : List task_struct) (s : Counters),
      kernellab_write 1 errno0 x tasks s = (s, ⟨errno0, none⟩)) ∧
    kernellab_write 1 (-EFAULT) (request42 stale) [worker] ⟨3, 1, 4⟩ =
      (⟨3, 1, 4⟩, ⟨-14, none⟩) ∧
    (kernellab_write 1 (-EFAULT) (request42 stale) [worker] ⟨3, 1, 4⟩).2.ret ≠ 0 := by
  refine ⟨?_, by decide, by decide⟩
  intro errno0 x tasks s
  simp [kernellab_write]

/-! ## Sign of the counters along a run (C9) -/

theorem run_append (RESET : Nat) (xs ys : List Op) (s : Counters) :
    run RESET (xs ++ ys) s = run RESET ys (run RESET xs s) := by
  simp [run, List.foldl_append]

theorem noOverflowRun_append (RESET : Nat) (xs ys : List Op) (s : Counters) :
    noOverflowRun RESET (xs ++ ys) s =
      (noOverflowRun RESET xs s && noOverflowRun RESET ys (run RESET xs s)) := by
  induction xs generalizing s with
  | nil => simp [noOverflowRun, run]
  | cons x xs ih =>
    show (noOverflow x s && noOverflowRun RESET (xs ++ ys) (step RESET x s)) = _
    rw [ih, ← Bool.and_assoc]
    rfl

theorem step_inRange (RESET : Nat) (op : Op) (s : Counters) (hs : InRange s) :
    InRange (step RESET op s) := by
  obtain ⟨hc, hp, ha⟩ := hs
  cases op with
  | dev_open minor interrupted =>
    by_cases h : minor = 1 <;> cases interrupted <;>
      simp only [step, kernellab_open, h, if_true, if_false, Bool.false_eq_true]
    · exact ⟨⟨wrapInt_lower _, wrapInt_upper _⟩, hp, ha⟩
    · exact ⟨⟨wrapInt_lower _, wrapInt_upper _⟩, hp, ha⟩
    · exact ⟨hc, ⟨wrapInt_lower _, wrapInt_upper _⟩, ha⟩
    · exact ⟨hc, ⟨wrapInt_lower _, wrapInt_upper _⟩, ha⟩
  | dev_release minor => exact ⟨hc, hp, ha⟩
  | dev_read minor errno0 fault => exact ⟨hc, hp, ha⟩
  | dev_write minor errno0 x tasks =>
    by_cases h : minor = 2 <;> simp only [step, kernellab_write, h, if_true, if_false] <;>
      exact ⟨hc, hp, ha⟩
  | dev_ioctl minor cmd =>
    by_cases h : minor = 1 ∧ cmd = RESET
    · simp only [step, kernellab_ioctl, h, and_self, if_true]
      exact ⟨by norm_num, hp, by norm_num⟩
    · simp only [step, kernellab_ioctl, h, if_false]
      exact ⟨hc, by norm_num, by norm_num⟩
  | attr_current_count => exact ⟨hc, hp, ha⟩
  | attr_pid_count => exact ⟨hc, hp, ha⟩
  | attr_all_count =>
    simp only [step, kernellab_all_count_state]
    exact ⟨hc, hp, ⟨wrapInt_lower _, wrapInt_upper _⟩⟩

theorem run_inRange (RESET : Nat) (ops : List Op) (s : Counters) (hs : InRange s) :
    InRange (run RESET ops s) := by
  induction ops generalizing s with
  | nil => exact hs
  | cons op ops ih => exact ih _ (step_inRange RESET op s hs)

theorem step_nonNeg (RESET : Nat) (op : Op) (s : Counters) (hs : NonNeg s)
    (ho : noOverflow op s = true) :
    NonNeg (step RESET op s) ∧ (op.isIoctl = false → s.all_count ≤ (step RESET op s).all_count) := by
  obtain ⟨hc, hp, ha⟩ := hs
  cases op with
  | dev_open minor interrupted =>
    by_cases h : minor = 1
    · simp only [noOverflow, h, if_true, decide_eq_true_eq, INT_MAX] at ho
      have hw : wrapInt (s.current_count + 1) = s.current_count + 1 :=
        wrapInt_of_inRange _ (by omega) (by omega)
      cases interrupted <;>
        simp only [step, kernellab_open, h, if_true, if_false, Bool.false_eq_true, hw] <;>
        exact ⟨⟨by dsimp only; omega, hp, ha⟩, fun _ => le_refl _⟩
    · simp only [noOverflow, h, if_false, decide_eq_true_eq, INT_MAX] at ho
      have hw : wrapInt (s.pid_count + 1) = s.pid_count + 1 :=
        wrapInt_of_inRange _ (by omega) (by omega)
      cases interrupted <;>
        simp only [step, kernellab_open, h, if_true, if_false, Bool.false_eq_true, hw] <;>
        exact ⟨⟨hc, by dsimp only; omega, ha⟩, fun _ => le_refl _⟩
  | dev_release minor => exact ⟨⟨hc, hp, ha⟩, fun _ => le_refl _⟩
  | dev_read minor errno0 fault => exact ⟨⟨hc, hp, ha⟩, fun _ => le_refl _⟩
  | dev_write minor errno0 x tasks =>
    by_cases h : minor = 2 <;> simp only [step, kernellab_write, h, if_true, if_false] <;>
      exact ⟨⟨hc, hp, ha⟩, fun _ => le_refl _⟩
  | dev_ioctl minor cmd =>
    refine ⟨?_, fun h => by simp [Op.isIoctl] at h⟩
    by_cases h : minor = 1 ∧ cmd = RESET
    · simp only [step, kernellab_ioctl, h, and_self, if_true]
      exact ⟨le_refl _, hp, le_refl _⟩
    · simp only [step, kernellab_ioctl, h, if_false]
      exact ⟨hc, le_refl _, le_refl _⟩
  | attr_current_count => exact ⟨⟨hc, hp, ha⟩, fun _ => le_refl _⟩
  | attr_pid_count => exact ⟨⟨hc, hp, ha⟩, fun _ => le_refl _⟩
  | attr_all_count =>
    simp only [noOverflow, Bool.and_eq_true, decide_eq_true_eq, INT_MAX] at ho
    have hw : wrapInt (s.all_count + s.pid_count + s.current_count) =
        s.all_count + s.pid_count + s.current_count :=
      wrapInt_of_inRange _ (by omega) (by omega)
    simp only [step, kernellab_all_count_state, hw]
    exact ⟨⟨hc, hp, by dsimp only; omega⟩, fun _ => by omega⟩

theorem run_nonNeg (RESET : Nat) (ops : List Op) (s : Counters) (hs : NonNeg s)
    (ho : noOverflowRun RESET ops s = true) :
    NonNeg (run RESET ops s) ∧
      ((∀ op ∈ ops, op.isIoctl = false) → s.all_count ≤ (run RESET ops s).all_count) := by
  induction ops generalizing s with
  | nil => exact ⟨hs, fun _ => le_refl _⟩
  | cons op ops ih =>
    simp only [noOverflowRun, Bool.and_eq_true] at ho
    obtain ⟨h1, h2⟩ := step_nonNeg RESET op s hs ho.1
    obtain ⟨h3, h4⟩ := ih (step RESET op s) h1 ho.2
    refine ⟨h3, fun hno => ?_⟩
    have ha := h2 (hno op (List.mem_cons_self _ _))
    have hb := h4 (fun o ho2 => hno o (List.mem_cons_of_mem _ ho2))
    exact le_trans ha hb

theorem zero_nonNeg : NonNeg Counters.zero := by
  simp [NonNeg, Counters.zero]

theorem run_replicate_open (RESET : Nat) (n : Nat) (s : Counters) :
    run RESET (List.replicate n (.dev_open 1 false)) s = open_all (List.replicate n 1) s := by
  induction n generalizing s with
  | zero => rfl
  | succ n ih =>
    rw [List.replicate_succ, List.replicate_succ, open_all_cons]
    exact ih _

theorem open_all_replicate_one (n : Nat) :
    open_all (List.replicate n 1) Counters.zero = ⟨wrapInt n, 0, 0⟩ := by
  have hm : ∀ m ∈ List.replicate n (1 : Int), m = 1 ∨ m = 2 := fun m h =>
    Or.inl (List.eq_of_mem_replicate h)
  obtain ⟨hc, hp⟩ := open_all_zero_counts _ hm
  have ha := open_all_all_count (List.replicate n 1) Counters.zero
  rw [List.count_replicate_self] at hc
  have h2 : List.count (2 : Int) (List.replicate n 1) = 0 := by
    simp [List.count_replicate]
  rw [h2] at hp
  have hw : wrapInt ((0 : Nat) : Int) = 0 := by decide
  rw [hw] at hp
  cases hs : open_all (List.replicate n 1) Counters.zero with
  | mk c p a =>
    rw [hs] at hc hp ha
    simp only at hc hp ha
    rw [hc, hp, ha]
    rfl

/-- C9 (as amended): every state reachable from the zero-initialised counters
by any sequence of open, close, read, write, ioctl and attribute reads holds
three 32-bit `int` values, whether or not an addition wrapped on the way.  As
long as no `int` addition of the sequence exceeds `INT_MAX`, the three counters
are non-negative in every state reached, and across any stretch of calls
without an ioctl `all_count`, which is the value each read of the `all_count`
attribute returns as text, does not decrease. -/
theorem run_counters_nonNeg_monotone (RESET : Nat) (before between : List Op) :
    (∀ ops : List Op, InRange (run RESET ops Counters.zero)) ∧
    (noOverflowRun RESET (before ++ between) Counters.zero = true →
      NonNeg (run RESET before Counters.zero) ∧
      NonNeg (run RESET (before ++ between) Counters.zero) ∧
      ((∀ op ∈ between, op.isIoctl = false) →
        (run RESET before Counters.zero).all_count ≤
          (run RESET (before ++ between) Counters.zero).all_count)) ∧
    (∀ s : Counters, (kernellab_all_count all_count_attr_name s).2.buf =
      toString (step RESET .attr_all_count s).all_count ++ "\n") := by
  refine ⟨fun ops => run_inRange RESET ops _ zero_inRange, ?_, fun s => rfl⟩
  intro ho
  rw [noOverflowRun_append, Bool.and_eq_true] at ho
  have h1 := run_nonNeg RESET before Counters.zero zero_nonNeg ho.1
  have h2 := run_nonNeg RESET between (run RESET before Counters.zero) h1.1 ho.2
  refine ⟨h1.1, ?_, ?_⟩
  · rw [run_append]
    exact h2.1
  · intro hb
    rw [run_append]
    exact h2.2 hb

/-- Witness for C9: three opens of instance 1, one open of instance 2 and a
read of `all_count`, then a further read: the aggregate goes from 4 to 8. -/
theorem run_counters_nonNeg_monotone_witness :
    (run 0 [.dev_open 1 false, .dev_open 1 false, .dev_open 1 false, .dev_open 2 false,
        .attr_all_count] Counters.zero).all_count ≤
      (run 0 ([.dev_open 1 false, .dev_open 1 false, .dev_open 1 false, .dev_open 2 false,
        .attr_all_count] ++ [.attr_current_count, .attr_all_count]) Counters.zero).all_count :=
  ((run_counters_nonNeg_monotone 0
    [.dev_open 1 false, .dev_open 1 false, .dev_open 1 false, .dev_open 2 false,
      .attr_all_count]
    [.attr_current_count, .attr_all_count]).2.1 (by decide)).2.2 (by decide)

/-- C9 fails as stated: after `2 ^ 31 - 1` successful opens of instance 1, a
first read of the `all_count` attribute leaves `all_count = 2147483647` and a
second one, with no reset in between, leaves `all_count = -2`: a reachable
state with a negative counter, and a returned value smaller than the one
before. -/
theorem run_all_count_turns_negative :
    (run 0 (List.replicate 2147483647 (.dev_open 1 false) ++ [.attr_all_count])
      Counters.zero).all_count = 2147483647 ∧
    (run 0 (List.replicate 2147483647 (.dev_open 1 false) ++ [.attr_all_count, .attr_all_count])
      Counters.zero).all_count = -2 ∧
    ¬ NonNeg (run 0 (List.replicate 2147483647 (.dev_open 1 false) ++
      [.attr_all_count, .attr_all_count]) Counters.zero) := by
  have hw : wrapInt ((2147483647 : Nat) : Int) = 2147483647 := by
    unfold wrapInt
    norm_num
  have h1 : run 0 (List.replicate 2147483647 (.dev_open 1 false) ++ [.attr_all_count])
      Counters.zero = ⟨2147483647, 0, 2147483647⟩ := by
    rw [run_append, run_replicate_open, open_all_replicate_one, hw]
    decide
  have h2 : run 0 (List.replicate 2147483647 (.dev_open 1 false) ++
      [.attr_all_count, .attr_all_count]) Counters.zero = ⟨2147483647, 0, -2⟩ := by
    rw [run_append, run_replicate_open, open_all_replicate_one, hw]
    decide
  rw [h1, h2]
  refine ⟨rfl, rfl, ?_⟩
  unfold NonNeg
  norm_num

/-! ## Which semaphore is held at the counter accesses (C10) -/

theorem accesses_open (minor : Int) (interrupted : Bool) :
    accesses (kernellab_open_events minor interrupted) [] =
      if minor = 1 then [(.load .current_count, [minor]), (.store .current_count, [minor])]
      else [(.load .pid_count, [minor]), (.store .pid_count, [minor])] := by
  by_cases h : minor = 1 <;> cases interrupted <;>
    simp [kernellab_open_events, accesses, h]

theorem accesses_ioctl (RESET : Nat) (minor : Int) (cmd : Nat) :
    accesses (kernellab_ioctl_events RESET minor cmd) [] =
      if minor = 1 ∧ cmd = RESET then
        [(.store .current_count, [minor]), (.store .all_count, [minor])]
      else [(.store .pid_count, [minor]), (.store .all_count, [minor])] := by
  by_cases h : minor = 1 ∧ cmd = RESET
  · simp [kernellab_ioctl_events, accesses, h]
  · simp only [kernellab_ioctl_events, h, if_false]
    simp [accesses]

theorem accesses_all_count (attrName : String) :
    accesses (kernellab_all_count_events attrName) [] =
      (if attrName = "current_count" then
        [(.load .all_count, [1]), (.load .current_count, [1]), (.store .all_count, [1])]
      else
        [(.load .all_count, [1]), (.load .pid_count, [1]), (.store .all_count, [1]),
         (.load .all_count, [1]), (.load .current_count, [1]), (.store .all_count, [1])]) ++
      [(.load .all_count, [])] := by
  by_cases h : attrName = "current_count" <;>
    simp [kernellab_all_count_events, accesses, h]

/-- C10 (code evaluated at the failing input): there is no store-wide lock.
Open and ioctl access the counters holding exactly the semaphore of the device
the call is issued on, the `all_count` attribute read updates `all_count`
holding exactly the semaphore of device 1 and formats it holding none, and the
`current_count` and `pid_count` attribute reads hold none.  So a reset on
instance 2 stores to `pid_count` and `all_count` under semaphore 2 while the
`all_count` attribute read loads `pid_count` and updates `all_count` under
semaphore 1, and no semaphore is held at every access. -/
theorem no_store_wide_lock :
    (∀ RESET : Nat, ¬ ∃ L : Int, LockHeldThroughout RESET L) ∧
    (∀ (minor : Int) (interrupted : Bool),
      accesses (kernellab_open_events minor interrupted) [] =
        if minor = 1 then [(.load .current_count, [minor]), (.store .current_count, [minor])]
        else [(.load .pid_count, [minor]), (.store .pid_count, [minor])]) ∧
    (∀ (RESET : Nat) (minor : Int) (cmd : Nat),
      accesses (kernellab_ioctl_events RESET minor cmd) [] =
        if minor = 1 ∧ cmd = RESET then
          [(.store .current_count, [minor]), (.store .all_count, [minor])]
        else [(.store .pid_count, [minor]), (.store .all_count, [minor])]) ∧
    accesses (kernellab_all_count_events all_count_attr_name) [] =
      [(.load .all_count, [1]), (.load .pid_count, [1]), (.store .all_count, [1]),
       (.load .all_count, [1]), (.load .current_count, [1]), (.store .all_count, [1]),
       (.load .all_count, [])] ∧
    accesses kernellab_current_count_events [] = [(.load .current_count, [])] ∧
    accesses kernellab_pid_count_events [] = [(.load .pid_count, [])] ∧
    accesses (kernellab_ioctl_events 0 2 0) [] =
      [(.store .pid_count, [2]), (.store .all_count, [2])] ∧
    accesses (kernellab_open_events 2 false) [] =
      [(.load .pid_count, [2]), (.store .pid_count, [2])] := by
  refine ⟨?_, accesses_open, accesses_ioctl, by decide, by decide, by decide, by decide,
    by decide⟩
  rintro RESET ⟨L, _, hi, _, _, _⟩
  have h1 := hi 1 (Or.inl rfl) RESET (.store .all_count, [1])
    (by rw [accesses_ioctl]; simp)
  have h2 := hi 2 (Or.inr rfl) RESET (.store .all_count, [2])
    (by rw [accesses_ioctl]; simp)
  simp only [List.mem_singleton] at h1 h2
  omega

end Kernellab
